import Mathlib

/-!
Verification of the MCP server-management subsystem of the aichat repository.

The definitions below are a shallow embedding of the JavaScript sources:
  api/server/services/MCPServerService.js   (service layer, merge + validation)
  api/models/MCPServer.js                   (database CRUD operations)
  api/server/routes/mcp.js                  (REST status-code mapping)
  api/migrations/mcp/001-create-mcp-servers.js (unique index userId+name)
  api/server/services/initializeMCP.js      (startup initialization)
JavaScript objects become Lean structures, the Mongo collection becomes a
list of documents, and async functions become pure functions that thread the
database state and report thrown errors through Except.
-/

namespace Aichat

/-- Transport type of an MCP server: the `type` field of a server document.
One of stdio, websocket, sse, streamable-http. -/
inductive ServerType where
  | stdio
  | websocket
  | sse
  | streamableHttp
deriving DecidableEq, Repr

/-- Runtime status of a server (the `status` field). -/
inductive ServerStatus where
  | unknown
  | connecting
  | online
  | offline
  | error
deriving DecidableEq, Repr

/-- A cached tool entry as stored on a server document (`tools` array items):
name, description, per-tool enabled flag, input schema (kept opaque as a
numeric id), and a lastUpdated timestamp. -/
structure ToolDescr where
  name : String
  description : String
  enabled : Bool
  schemaId : Nat
  lastUpdated : Nat
deriving DecidableEq, Repr

/-- A raw tool as returned by the MCP manager during discovery, before
discoverServerTools formats it for storage. The description and inputSchema
may be absent. -/
structure RawTool where
  name : String
  description : Option String
  inputSchemaId : Option Nat
deriving DecidableEq, Repr

/-- The transport-specific `config` object of a server. Only the fields the
service code inspects are modelled: `command` and `args` for stdio servers,
`url` for the web-based types. A JS value that is absent or empty-string
falsy is modelled with Option / the empty string. -/
structure MCPConfig where
  command : Option String
  args : Option (List String)
  url : Option String
deriving DecidableEq, Repr

/-- A stored MCP server document (collection mcpservers). Timestamps are
modelled as naturals. -/
structure MCPServerDoc where
  id : Nat
  userId : String
  name : String
  type : ServerType
  config : MCPConfig
  description : Option String
  enabled : Bool
  status : ServerStatus
  errorMessage : Option String
  lastConnected : Option Nat
  tools : List ToolDescr
  toolCount : Nat
  updatedAt : Nat
deriving DecidableEq, Repr

/-- The database invariant installed by migration 001-create-mcp-servers.js:
the compound index userId+name is unique, so no two documents share both the
owning user and the name. -/
def dbWellFormed (db : List MCPServerDoc) : Prop :=
  List.Pairwise (fun a b => a.userId ≠ b.userId ∨ a.name ≠ b.name) db

/-- An entry of the merged name-to-config map handed to the MCP manager.
mergeConfigurations builds user entries as the spread
type + config fields + tags _userDefined, _userId, _serverId; YAML entries
carry no tags, modelled here by userDefined = false and absent ids. -/
structure MergedEntry where
  type : ServerType
  config : MCPConfig
  userDefined : Bool
  userId : Option String
  serverId : Option Nat
deriving DecidableEq, Repr

/-- The merged configuration object: a JS object keyed by server name,
modelled as an association list with unique keys in insertion order. -/
abbrev ConfigMap := List (String × MergedEntry)

/-- JS object property write m[k] = v: replaces the value in place when the
key is present, appends the key otherwise. -/
def setKey (m : ConfigMap) (k : String) (v : MergedEntry) : ConfigMap :=
  if m.any (fun p => p.1 == k) then
    m.map (fun p => if p.1 == k then (k, v) else p)
  else
    m ++ [(k, v)]

/-- JS object property read m[k]. -/
def getKey (m : ConfigMap) (k : String) : Option MergedEntry :=
  (m.find? (fun p => p.1 == k)).map Prod.snd

/-- Conversion of a database server document to its merged-config entry, as
built inside mergeConfigurations:
type: server.type, ...server.config, _userDefined: true,
_userId: server.userId, _serverId: server._id. -/
def toMergedEntry (s : MCPServerDoc) : MergedEntry :=
  { type := s.type
    config := s.config
    userDefined := true
    userId := some s.userId
    serverId := some s.id }

/-- MCPServerService.mergeConfigurations: start from a copy of the YAML
config and write every user server under its own name (database servers take
precedence over YAML servers with the same name). -/
def mergeConfigurations (yamlConfig : ConfigMap) (userServers : List MCPServerDoc) : ConfigMap :=
  userServers.foldl (fun merged s => setKey merged s.name (toMergedEntry s)) yamlConfig

/-- models/MCPServer.getMCPServers: filter the collection by userId and the
optional enabled filter. The createdAt sort only permutes documents of one
user and is irrelevant to the map produced by merging, so insertion order is
kept. -/
def getMCPServers (db : List MCPServerDoc) (uid : String) (enabledFilter : Option Bool) :
    List MCPServerDoc :=
  db.filter (fun s => s.userId == uid && enabledFilter.all (fun b => s.enabled == b))

/-- MCPServerService.getMergedMCPConfig: load user servers only when a
userId was passed and YAML override mode is off, then merge. The global
path (userId absent) therefore merges an empty user-server list. -/
def getMergedMCPConfig (yamlConfig : ConfigMap) (db : List MCPServerDoc)
    (userId : Option String) (yamlOverrideEnabled : Bool) : ConfigMap :=
  let userServers :=
    match userId with
    | some uid => if yamlOverrideEnabled then [] else getMCPServers db uid (some true)
    | none => []
  mergeConfigurations yamlConfig userServers

/-- WHATWG URL parsing reduced to the only part validateServerConfig
inspects: the protocol of the url string. A url string parses when it starts
with a scheme (a letter followed by letters, digits, plus, minus or dot) and
a colon; the protocol is then the lower-cased scheme with the trailing
colon. On any other string the URL constructor throws, modelled by none. -/
def isSchemeTailChar (c : Char) : Bool :=
  c.isAlphanum || c == '+' || c == '-' || c == '.'

/-- Characters of a url string before its first colon, or none when the
string contains no colon at all (the URL constructor then throws). -/
def schemeFront : List Char → Option (List Char)
  | [] => none
  | c :: cs => if c = ':' then some [] else (schemeFront cs).map (fun l => c :: l)

/-- Protocol of a url string, or none when URL parsing throws. -/
def urlProtocol (s : String) : Option String :=
  match schemeFront s.data with
  | none => none
  | some [] => none
  | some (c :: cs) =>
    if c.isAlpha && cs.all isSchemeTailChar then
      some (String.mk ((c :: cs).map Char.toLower) ++ ":")
    else none

/-- MCPServerService.validateServerConfig. Returns Except.error exactly where
the JS throws. Two remarks on faithfulness: an empty-string command or url is
falsy in JS, so it fails the required-field checks; and the two
protocol-mismatch throws sit inside the try block around the URL constructor,
so the surrounding catch (urlError) swallows them and re-throws the generic
Invalid URL format error, which this model reproduces. The type is already
one of the four transport kinds here (the route validator enforces that), so
the match is exhaustive. -/
def validateServerConfig (type? : Option ServerType) (config? : Option MCPConfig) :
    Except String Unit :=
  match type?, config? with
  | none, _ => Except.error "Server type and config are required"
  | some _, none => Except.error "Server type and config are required"
  | some t, some c =>
    match t with
    | ServerType.stdio =>
      if c.command.getD "" == "" then Except.error "Command is required for stdio type"
      else
        match c.args with
        | none => Except.error "Args array is required for stdio type"
        | some _ => Except.ok ()
    | _ =>
      if c.url.getD "" == "" then Except.error "URL is required for web-based types"
      else
        match urlProtocol (c.url.getD "") with
        | none => Except.error "Invalid URL format"
        | some p =>
          if t == ServerType.websocket && !(p == "ws:" || p == "wss:") then
            Except.error "Invalid URL format"
          else if (t == ServerType.sse || t == ServerType.streamableHttp)
              && (p == "ws:" || p == "wss:") then
            Except.error "Invalid URL format"
          else Except.ok ()

/-- A concrete file-defined (YAML) entry, transport sse. -/
def yamlWeatherEntry : MergedEntry :=
  { type := ServerType.sse
    config := { command := none, args := none, url := some "https://yaml.example.com/sse" }
    userDefined := false
    userId := none
    serverId := none }

/-- A second concrete file-defined entry with a distinct name. -/
def yamlFilesEntry : MergedEntry :=
  { type := ServerType.streamableHttp
    config := { command := none, args := none, url := some "https://files.example.com" }
    userDefined := false
    userId := none
    serverId := none }

/-- A concrete file config with two entries, named weather and files. -/
def sampleYaml : ConfigMap := [("weather", yamlWeatherEntry), ("files", yamlFilesEntry)]

/-- A concrete enabled user-defined server whose name collides with the
weather file entry. -/
def sampleServer : MCPServerDoc :=
  { id := 1
    userId := "u1"
    name := "weather"
    type := ServerType.streamableHttp
    config := { command := none, args := none, url := some "https://user.example.com/mcp" }
    description := none
    enabled := true
    status := ServerStatus.online
    errorMessage := none
    lastConnected := none
    tools := []
    toolCount := 0
    updatedAt := 0 }

/-- The sample server, disabled. -/
def sampleDisabledServer : MCPServerDoc :=
  { sampleServer with id := 2, enabled := false }

/-- A malformed stdio server: the command field is absent, so it fails
validateServerConfig. -/
def malformedStdioServer : MCPServerDoc :=
  { id := 7
    userId := "u1"
    name := "badsrv"
    type := ServerType.stdio
    config := { command := none, args := none, url := none }
    description := none
    enabled := true
    status := ServerStatus.unknown
    errorMessage := none
    lastConnected := none
    tools := []
    toolCount := 0
    updatedAt := 0 }

/-- A well-formed stdio server merged alongside the malformed one. -/
def okStdioServer : MCPServerDoc :=
  { malformedStdioServer with
    id := 8
    name := "goodsrv"
    config := { command := some "node", args := some ["echo.js"], url := none } }

/-- Body of a create-server request, after the route validation middleware
has checked field shapes. The type and config may still be absent, which
validateServerConfig rejects. -/
structure NewServerData where
  name : String
  type : Option ServerType
  config : Option MCPConfig
  description : Option String
  enabled : Option Bool
deriving DecidableEq, Repr

/-- The duplicate-name error message raised by the model layer when the
Mongo unique index userId+name reports error code 11000. -/
def dupMsg (n : String) : String :=
  "MCP server with name \"" ++ n ++ "\" already exists for this user"

/-- Mongo lookup on id plus owning user, as used by findOne and
findOneAndUpdate filters in models/MCPServer.js. -/
def findDoc (db : List MCPServerDoc) (sid : Nat) (uid : String) : Option MCPServerDoc :=
  db.find? (fun s => s.id == sid && s.userId == uid)

/-- Replacement of the matching document. Document ids are unique in Mongo,
so updating every match coincides with findOneAndUpdate updating the first. -/
def mapDoc (db : List MCPServerDoc) (sid : Nat) (uid : String)
    (f : MCPServerDoc → MCPServerDoc) : List MCPServerDoc :=
  db.map (fun s => if s.id == sid && s.userId == uid then f s else s)

/-- models/MCPServer.createMCPServer plus the unique index of migration
001-create-mcp-servers.js: saving a document whose userId and name both
collide with an existing document raises the duplicate-key error 11000,
converted into the already-exists Error; otherwise the document is saved
with enabled defaulted to true, status unknown, toolCount 0 and an empty
tools list. The type and config arguments are the fields of the request
body, which the service has already validated to be present. -/
def createMCPServer (db : List MCPServerDoc) (uid : String) (data : NewServerData)
    (t : ServerType) (c : MCPConfig) (now newId : Nat) :
    Except String MCPServerDoc × List MCPServerDoc :=
  if db.any (fun s => s.userId == uid && s.name == data.name) then
    (Except.error (dupMsg data.name), db)
  else
    let doc : MCPServerDoc :=
      { id := newId
        userId := uid
        name := data.name
        type := t
        config := c
        description := data.description
        enabled := data.enabled.getD true
        status := ServerStatus.unknown
        errorMessage := none
        lastConnected := none
        tools := []
        toolCount := 0
        updatedAt := now }
    (Except.ok doc, db ++ [doc])

/-- Body of an update-server request: every field optional; unvalidated
fields such as tools and toolCount pass through the route untouched and are
spread into the findOneAndUpdate document. -/
structure UpdateData where
  name : Option String
  type : Option ServerType
  config : Option MCPConfig
  description : Option String
  enabled : Option Bool
  tools : Option (List ToolDescr)
  toolCount : Option Nat
deriving DecidableEq, Repr

/-- Spread of the update fields over a document, plus the updatedAt stamp,
as performed by updateMCPServer via findOneAndUpdate. -/
def applyUpdate (doc : MCPServerDoc) (u : UpdateData) (now : Nat) : MCPServerDoc :=
  { doc with
    name := u.name.getD doc.name
    type := u.type.getD doc.type
    config := u.config.getD doc.config
    description := match u.description with
      | none => doc.description
      | some d => some d
    enabled := u.enabled.getD doc.enabled
    tools := u.tools.getD doc.tools
    toolCount := u.toolCount.getD doc.toolCount
    updatedAt := now }

/-- models/MCPServer.updateMCPServer: findOneAndUpdate on id and userId; a
missing document returns null; a rename that collides with another document
of the same user trips the unique index (error 11000), rethrown as the
already-exists Error whose message interpolates updateData.name (the JS
template renders a missing name as the string undefined). -/
def updateMCPServer (db : List MCPServerDoc) (sid : Nat) (uid : String)
    (u : UpdateData) (now : Nat) :
    Except String (Option MCPServerDoc) × List MCPServerDoc :=
  match findDoc db sid uid with
  | none => (Except.ok none, db)
  | some doc =>
    let newDoc := applyUpdate doc u now
    if db.any (fun s => !(s.id == sid) && s.userId == doc.userId && s.name == newDoc.name) then
      (Except.error (dupMsg (u.name.getD "undefined")), db)
    else
      (Except.ok (some newDoc), mapDoc db sid uid (fun _ => newDoc))

/-- Status-update payload of updateMCPServerStatus. The errorMessage field
distinguishes absent (outer none, JS undefined) from present-null (some
none) and present-string (some (some m)); lastConnected is only ever passed
as a date or left out. -/
structure StatusData where
  status : ServerStatus
  errorMessage : Option (Option String)
  lastConnected : Option Nat
deriving DecidableEq, Repr

/-- models/MCPServer.updateMCPServerStatus field construction: status and
updatedAt always; errorMessage only when the caller passed the field;
lastConnected only when truthy; finally errorMessage forced to null whenever
the new status is not error. -/
def applyStatusData (doc : MCPServerDoc) (d : StatusData) (now : Nat) : MCPServerDoc :=
  let s1 := { doc with status := d.status, updatedAt := now }
  let s2 := match d.errorMessage with
    | none => s1
    | some em => { s1 with errorMessage := em }
  let s3 := match d.lastConnected with
    | none => s2
    | some t => { s2 with lastConnected := some t }
  if d.status == ServerStatus.error then s3 else { s3 with errorMessage := none }

/-- models/MCPServer.updateMCPServerStatus as a database operation. -/
def updateMCPServerStatus (db : List MCPServerDoc) (sid : Nat) (uid : String)
    (d : StatusData) (now : Nat) : Option MCPServerDoc × List MCPServerDoc :=
  match findDoc db sid uid with
  | none => (none, db)
  | some doc =>
    let newDoc := applyStatusData doc d now
    (some newDoc, mapDoc db sid uid (fun _ => newDoc))

/-- models/MCPServer.updateMCPServerTools: writes the tools array and sets
toolCount to its length, stamping updatedAt. -/
def updateMCPServerTools (db : List MCPServerDoc) (sid : Nat) (uid : String)
    (tools : List ToolDescr) (now : Nat) : Option MCPServerDoc × List MCPServerDoc :=
  match findDoc db sid uid with
  | none => (none, db)
  | some doc =>
    let newDoc := { doc with tools := tools, toolCount := tools.length, updatedAt := now }
    (some newDoc, mapDoc db sid uid (fun _ => newDoc))

/-- models/MCPServer.toggleMCPServer: sets enabled and, when disabling, also
resets status to offline. -/
def toggleMCPServer (db : List MCPServerDoc) (sid : Nat) (uid : String)
    (enabled : Bool) (now : Nat) : Option MCPServerDoc × List MCPServerDoc :=
  match findDoc db sid uid with
  | none => (none, db)
  | some doc =>
    let newDoc :=
      if enabled then { doc with enabled := true, updatedAt := now }
      else { doc with enabled := false, status := ServerStatus.offline, updatedAt := now }
    (some newDoc, mapDoc db sid uid (fun _ => newDoc))

/-- The externally visible I/O steps a service call performs, in order:
database writes and the MCP system refresh (which reinitializes the manager
and attempts connections). -/
inductive Effect where
  | dbCreate
  | dbUpdate
  | systemRefresh
deriving DecidableEq, Repr

/-- Outcome of a service-layer call: the value or thrown error, the database
afterwards, and the I/O effects performed. -/
structure ServiceOut (α : Type) where
  result : Except String α
  db : List MCPServerDoc
  effects : List Effect

/-- MCPServerService.createUserServer: validateServerConfig runs first, so a
validation error returns before any database write or system refresh (empty
effects, database untouched); otherwise createMCPServer runs and, on
success, refreshMCPSystem. The final match arm is unreachable because a
passing validation implies the type and config are present. -/
def createUserServer (db : List MCPServerDoc) (uid : String) (data : NewServerData)
    (now newId : Nat) : ServiceOut MCPServerDoc :=
  match validateServerConfig data.type data.config with
  | Except.error m => { result := Except.error m, db := db, effects := [] }
  | Except.ok _ =>
    match data.type, data.config with
    | some t, some c =>
      match createMCPServer db uid data t c now newId with
      | (Except.error m, db2) =>
        { result := Except.error m, db := db2, effects := [Effect.dbCreate] }
      | (Except.ok doc, db2) =>
        { result := Except.ok doc, db := db2
          effects := [Effect.dbCreate, Effect.systemRefresh] }
    | _, _ => { result := Except.error "Server type and config are required", db := db, effects := [] }

/-- MCPServerService.updateUserServer after its optional validation step:
updateMCPServer runs; a null result throws Server not found; an enabled
updated server additionally triggers the system refresh. -/
def updateUserServerCore (db : List MCPServerDoc) (sid : Nat) (uid : String)
    (u : UpdateData) (now : Nat) : ServiceOut MCPServerDoc :=
  match updateMCPServer db sid uid u now with
  | (Except.error m, db2) =>
    { result := Except.error m, db := db2, effects := [Effect.dbUpdate] }
  | (Except.ok none, db2) =>
    { result := Except.error "Server not found", db := db2, effects := [Effect.dbUpdate] }
  | (Except.ok (some doc), db2) =>
    { result := Except.ok doc, db := db2
      effects := if doc.enabled then [Effect.dbUpdate, Effect.systemRefresh]
        else [Effect.dbUpdate] }

/-- MCPServerService.updateUserServer: when the update carries a config the
service validates it first (passing the update type field, which may be
absent), aborting with no I/O on a validation error. -/
def updateUserServer (db : List MCPServerDoc) (sid : Nat) (uid : String)
    (u : UpdateData) (now : Nat) : ServiceOut MCPServerDoc :=
  match u.config with
  | some c =>
    match validateServerConfig u.type (some c) with
    | Except.error m => { result := Except.error m, db := db, effects := [] }
    | Except.ok _ => updateUserServerCore db sid uid u now
  | none => updateUserServerCore db sid uid u now

/-- String.prototype.includes: pat occurs as a contiguous substring of s. -/
def containsSubstr (s pat : String) : Bool :=
  decide (List.IsInfix pat.data s.data)

/-- An abstract HTTP response: the status code and the error payload. -/
structure HttpResponse where
  status : Nat
  errorMsg : Option String
deriving DecidableEq, Repr

/-- routes/mcp.js POST /servers error mapping: 201 on success, 409 when the
thrown message includes already exists, 500 otherwise. -/
def postServersStatus (r : Except String MCPServerDoc) : HttpResponse :=
  match r with
  | Except.ok _ => { status := 201, errorMsg := none }
  | Except.error m =>
    if containsSubstr m "already exists" then { status := 409, errorMsg := some m }
    else { status := 500, errorMsg := some "Failed to create server" }

/-- routes/mcp.js PUT /servers/:id error mapping: 200 on success, 404 when
the message includes Server not found, 409 when it includes already exists,
500 otherwise. -/
def putServersStatus (r : Except String MCPServerDoc) : HttpResponse :=
  match r with
  | Except.ok _ => { status := 200, errorMsg := none }
  | Except.error m =>
    if containsSubstr m "Server not found" then
      { status := 404, errorMsg := some "Server not found" }
    else if containsSubstr m "already exists" then { status := 409, errorMsg := some m }
    else { status := 500, errorMsg := some "Failed to update server" }

/-- Result object of performConnectionTest. -/
structure TestResult where
  success : Bool
  error : Option String
  tools : List ToolDescr
deriving DecidableEq, Repr

/-- What the MCP manager does on a connection test: returns success with an
optional tools array, returns failure with an optional error string, or
throws a transport-level exception (timeout, refused connection, protocol
error). -/
inductive TransportOutcome where
  | ok (tools : Option (List ToolDescr))
  | failed (err : Option String)
  | thrown (msg : String)
deriving DecidableEq, Repr

/-- MCPServerService.performConnectionTest: the whole body sits in a
try/catch, so a thrown transport exception is caught and converted into a
failed TestResult — the function itself never throws. A falsy error string
is replaced by the Connection test failed fallback. -/
def performConnectionTest (o : TransportOutcome) : TestResult :=
  match o with
  | TransportOutcome.ok tools? => { success := true, error := none, tools := tools?.getD [] }
  | TransportOutcome.failed e =>
    { success := false
      error := some (if e.getD "" == "" then "Connection test failed" else e.getD "")
      tools := [] }
  | TransportOutcome.thrown msg =>
    { success := false
      error := some (if msg == "" then "Connection test failed" else msg)
      tools := [] }

/-- Outcome of testServerConnection: the sequence of status values written
to the document, the returned (or thrown) result, and the database after. -/
structure TestConnOut where
  trace : List ServerStatus
  result : Except String TestResult
  db : List MCPServerDoc

/-- MCPServerService.testServerConnection: look the server up (absent throws
Server not found), write status connecting with errorMessage cleared, run
performConnectionTest, then write the final status — online with
lastConnected stamped on success, error carrying the result error on
failure — and store the returned tools on success (a returned tools array is
always truthy, even empty, so the tools write is guarded by success alone). -/
def testServerConnection (db : List MCPServerDoc) (sid : Nat) (uid : String)
    (outcome : TransportOutcome) (now : Nat) : TestConnOut :=
  match findDoc db sid uid with
  | none => { trace := [], result := Except.error "Server not found", db := db }
  | some _ =>
    let db1 := (updateMCPServerStatus db sid uid
      { status := ServerStatus.connecting, errorMessage := some none, lastConnected := none }
      now).2
    let r := performConnectionTest outcome
    let finalStatus := if r.success then ServerStatus.online else ServerStatus.error
    let db2 := (updateMCPServerStatus db1 sid uid
      { status := finalStatus
        errorMessage := if r.success then some none else
          (match r.error with
            | some m => some (some m)
            | none => none)
        lastConnected := if r.success then some now else none }
      now).2
    let db3 := if r.success then (updateMCPServerTools db2 sid uid r.tools now).2 else db2
    { trace := [ServerStatus.connecting, finalStatus], result := Except.ok r, db := db3 }

/-- MCPServerService.discoverServerTools: formats the tools the MCP manager
discovered, enabling each by default and stamping lastUpdated; any error is
caught and an empty array returned instead of throwing. -/
def discoverServerTools (outcome : Except String (List RawTool)) (now : Nat) :
    List ToolDescr :=
  match outcome with
  | Except.error _ => []
  | Except.ok raw =>
    raw.map (fun tool =>
      { name := tool.name
        description := tool.description.getD ""
        enabled := true
        schemaId := tool.inputSchemaId.getD 0
        lastUpdated := now })

/-- Outcome of refreshServerTools: the returned tools and toolCount, or the
thrown error, plus the database after. -/
structure RefreshToolsOut where
  result : Except String (List ToolDescr × Nat)
  db : List MCPServerDoc

/-- MCPServerService.refreshServerTools: look the server up (absent throws
Server not found), run discovery, store the result via updateMCPServerTools
and return the stored tools and count. The none arm mirrors the TypeError
the JS would raise reading fields of a null update result; it is unreachable
when the server exists. -/
def refreshServerTools (db : List MCPServerDoc) (sid : Nat) (uid : String)
    (outcome : Except String (List RawTool)) (now : Nat) : RefreshToolsOut :=
  match findDoc db sid uid with
  | none => { result := Except.error "Server not found", db := db }
  | some _ =>
    let discovered := discoverServerTools outcome now
    match updateMCPServerTools db sid uid discovered now with
    | (some u, db2) => { result := Except.ok (u.tools, u.toolCount), db := db2 }
    | (none, db2) => { result := Except.error "TypeError", db := db2 }

/- Helper lemmas about the association-map operations. -/

theorem find?_mapReplace_self (t : ConfigMap) (k : String) (v : MergedEntry)
    (h : t.any (fun p => p.1 == k) = true) :
    (t.map (fun p => if p.1 == k then (k, v) else p)).find? (fun p => p.1 == k)
      = some (k, v) := by
  induction t with
  | nil => simp at h
  | cons a t ih =>
    simp only [List.map_cons]
    by_cases ha : (a.1 == k) = true
    · rw [if_pos ha]
      simp [List.find?_cons]
    · have ha' : (a.1 == k) = false := by simpa using ha
      rw [if_neg ha]
      simp only [List.find?_cons, ha']
      simp only [List.any_cons, ha', Bool.false_or] at h
      exact ih h

theorem find?_mapReplace_other (t : ConfigMap) (k k2 : String) (v : MergedEntry)
    (hne : (k == k2) = false) :
    (t.map (fun p => if p.1 == k then (k, v) else p)).find? (fun p => p.1 == k2)
      = t.find? (fun p => p.1 == k2) := by
  induction t with
  | nil => rfl
  | cons a t ih =>
    simp only [List.map_cons]
    by_cases ha : (a.1 == k) = true
    · have hak : a.1 = k := by simpa using ha
      have ha2 : (a.1 == k2) = false := by rw [hak]; exact hne
      rw [if_pos ha]
      simp only [List.find?_cons, hne, ha2]
      exact ih
    · rw [if_neg ha]
      by_cases ha2 : (a.1 == k2) = true
      · simp only [List.find?_cons, ha2]
      · have ha2' : (a.1 == k2) = false := by simpa using ha2
        simp only [List.find?_cons, ha2']
        exact ih

theorem find?_append_of_none {p : String × MergedEntry → Bool}
    (t l2 : ConfigMap) (h : t.find? p = none) :
    (t ++ l2).find? p = l2.find? p := by
  induction t with
  | nil => rfl
  | cons a t ih =>
    by_cases ha : p a = true
    · simp only [List.find?_cons, ha] at h
      exact Option.noConfusion h
    · have ha' : p a = false := by simpa using ha
      simp only [List.find?_cons, ha'] at h
      rw [List.cons_append]
      simp only [List.find?_cons, ha']
      exact ih h

theorem getKey_setKey_self (m : ConfigMap) (k : String) (v : MergedEntry) :
    getKey (setKey m k v) k = some v := by
  unfold setKey getKey
  by_cases h : m.any (fun p => p.1 == k) = true
  · rw [if_pos h, find?_mapReplace_self m k v h]
    rfl
  · rw [if_neg h]
    have hnone : m.find? (fun p => p.1 == k) = none := by
      rw [List.find?_eq_none]
      intro x hx hcon
      exact h (List.any_eq_true.mpr ⟨x, hx, hcon⟩)
    rw [find?_append_of_none m _ hnone]
    simp [List.find?_cons]

theorem getKey_setKey_other (m : ConfigMap) (k k2 : String) (v : MergedEntry)
    (hne : k ≠ k2) : getKey (setKey m k v) k2 = getKey m k2 := by
  have hne' : (k == k2) = false := beq_eq_false_iff_ne.mpr hne
  unfold setKey getKey
  by_cases h : m.any (fun p => p.1 == k) = true
  · rw [if_pos h, find?_mapReplace_other m k k2 v hne']
  · rw [if_neg h]
    cases hfind : m.find? (fun p => p.1 == k2) with
    | some a =>
      have hstep : (m ++ [(k, v)]).find? (fun p => p.1 == k2) = some a := by
        clear h
        induction m with
        | nil => cases hfind
        | cons b t ih =>
          by_cases hb : (b.1 == k2) = true
          · simp only [List.find?_cons, hb] at hfind
            rw [List.cons_append]
            simp only [List.find?_cons, hb]
            exact hfind
          · have hb' : (b.1 == k2) = false := by simpa using hb
            simp only [List.find?_cons, hb'] at hfind
            rw [List.cons_append]
            simp only [List.find?_cons, hb']
            exact ih hfind
      rw [hstep]
    | none =>
      rw [find?_append_of_none m _ hfind]
      simp [List.find?_cons, hne']

theorem merge_getKey_of_not_mem (us : List MCPServerDoc) (n : String) :
    (∀ s ∈ us, s.name ≠ n) →
    ∀ m : ConfigMap, getKey (mergeConfigurations m us) n = getKey m n := by
  induction us with
  | nil => intro _ m; rfl
  | cons a t ih =>
    intro h m
    show getKey (mergeConfigurations (setKey m a.name (toMergedEntry a)) t) n = getKey m n
    rw [ih (fun s hs => h s (List.mem_cons_of_mem _ hs)) (setKey m a.name (toMergedEntry a))]
    exact getKey_setKey_other m a.name n _ (h a (List.mem_cons_self _ _))

theorem merge_getKey_of_mem (us : List MCPServerDoc) (s : MCPServerDoc) :
    s ∈ us → (us.map (fun x => x.name)).Nodup →
    ∀ m : ConfigMap, getKey (mergeConfigurations m us) s.name = some (toMergedEntry s) := by
  induction us with
  | nil => intro hmem; cases hmem
  | cons a t ih =>
    intro hmem hnodup m
    simp only [List.map_cons, List.nodup_cons] at hnodup
    rcases List.mem_cons.mp hmem with heq | ht
    · subst heq
      have hnot : ∀ x ∈ t, x.name ≠ s.name := by
        intro x hx hcon
        exact hnodup.1 (by rw [← hcon]; exact List.mem_map_of_mem _ hx)
      show getKey (mergeConfigurations (setKey m s.name (toMergedEntry s)) t) s.name = _
      rw [merge_getKey_of_not_mem t _ hnot (setKey m s.name (toMergedEntry s))]
      exact getKey_setKey_self m s.name (toMergedEntry s)
    · exact ih ht hnodup.2 (setKey m a.name (toMergedEntry a))

theorem mem_getMCPServers_enabled {db : List MCPServerDoc} {uid : String}
    {s : MCPServerDoc} (hs : s ∈ db) (hu : s.userId = uid) (he : s.enabled = true) :
    s ∈ getMCPServers db uid (some true) := by
  unfold getMCPServers
  refine List.mem_filter.mpr ⟨hs, ?_⟩
  simp [hu, he, Option.all]

theorem getMCPServers_userId {db : List MCPServerDoc} {uid : String}
    {s : MCPServerDoc} (hs : s ∈ getMCPServers db uid (some true)) :
    s.userId = uid ∧ s.enabled = true := by
  unfold getMCPServers at hs
  have h2 := (List.mem_filter.mp hs).2
  simp only [Bool.and_eq_true, beq_iff_eq] at h2
  refine ⟨h2.1, ?_⟩
  have := h2.2
  simpa [Option.all] using this

theorem nodup_names_getMCPServers (db : List MCPServerDoc) (uid : String)
    (hwf : dbWellFormed db) :
    ((getMCPServers db uid (some true)).map (fun x => x.name)).Nodup := by
  have hf : (getMCPServers db uid (some true)).Pairwise
      (fun a b => a.userId ≠ b.userId ∨ a.name ≠ b.name) :=
    List.Pairwise.filter _ hwf
  have hp : (getMCPServers db uid (some true)).Pairwise
      (fun a b => a.name ≠ b.name) := by
    refine List.Pairwise.imp_of_mem ?_ hf
    intro a b ha hb hab
    rcases hab with h | h
    · exact absurd ((getMCPServers_userId ha).1.trans (getMCPServers_userId hb).1.symm) h
    · exact h
  exact List.pairwise_map.mpr hp

/-- C1: merging a file config with the enabled user-defined servers of a
user yields a map where each user server sits under its own name, tagged
userDefined with its owning userId, overwriting a colliding file entry;
file entries whose name no enabled user server carries are unchanged; and
with administrator YAML override mode enabled, user servers are excluded
entirely and the result equals the file config alone. -/
theorem merge_precedence_spec :
    (∀ (yaml : ConfigMap) (db : List MCPServerDoc) (uid : String) (s : MCPServerDoc),
      dbWellFormed db → s ∈ db → s.userId = uid → s.enabled = true →
      getKey (getMergedMCPConfig yaml db (some uid) false) s.name = some (toMergedEntry s)
        ∧ (toMergedEntry s).userDefined = true
        ∧ (toMergedEntry s).userId = some uid)
    ∧ (∀ (yaml : ConfigMap) (db : List MCPServerDoc) (uid : String) (n : String),
      (∀ s ∈ db, s.userId = uid → s.enabled = true → s.name ≠ n) →
      getKey (getMergedMCPConfig yaml db (some uid) false) n = getKey yaml n)
    ∧ (∀ (yaml : ConfigMap) (db : List MCPServerDoc) (uid : String),
      getMergedMCPConfig yaml db (some uid) true = yaml) := by
  refine ⟨?_, ?_, ?_⟩
  · intro yaml db uid s hwf hs hu he
    refine ⟨?_, rfl, by rw [show (toMergedEntry s).userId = some s.userId from rfl, hu]⟩
    show getKey (mergeConfigurations yaml (getMCPServers db uid (some true))) s.name = _
    exact merge_getKey_of_mem _ s (mem_getMCPServers_enabled hs hu he)
      (nodup_names_getMCPServers db uid hwf) yaml
  · intro yaml db uid n h
    show getKey (mergeConfigurations yaml (getMCPServers db uid (some true))) n = getKey yaml n
    refine merge_getKey_of_not_mem _ n ?_ yaml
    intro s hs
    have hprop := getMCPServers_userId hs
    exact h s (List.mem_of_mem_filter hs) hprop.1 hprop.2
  · intro yaml db uid
    rfl

/-- C2 (code bug): the service comments and the startup path describe the
merged configuration computed with no user id as the file config plus all
currently enabled database servers, but getMergedMCPConfig only loads user
servers when a userId is passed, so the global-scope merge used by
initializeMCP and refreshMCPSystem always returns the file config alone,
regardless of what enabled servers the database holds. The second conjunct
evaluates this at a database holding one enabled server. -/
theorem globalMerge_ignores_db :
    (∀ (yaml : ConfigMap) (db : List MCPServerDoc) (ov : Bool),
      getMergedMCPConfig yaml db none ov = yaml)
    ∧ (sampleServer.enabled = true
        ∧ getKey (getMergedMCPConfig [] [sampleServer] none false) sampleServer.name
            = none) := by
  exact ⟨fun _ _ _ => rfl, rfl, rfl⟩

/-- C7: only user servers whose enabled flag is true participate in the
merge; a user all of whose servers are disabled contributes nothing, and the
merged configuration equals the file config unchanged, even when a disabled
server name collides with a file entry. -/
theorem disabled_servers_excluded (yaml : ConfigMap) (db : List MCPServerDoc)
    (uid : String) (h : ∀ s ∈ db, s.userId = uid → s.enabled = false) :
    getMergedMCPConfig yaml db (some uid) false = yaml := by
  show mergeConfigurations yaml (getMCPServers db uid (some true)) = yaml
  have hempty : getMCPServers db uid (some true) = [] := by
    unfold getMCPServers
    rw [List.filter_eq_nil_iff]
    intro s hs
    intro hcon
    simp only [Bool.and_eq_true, beq_iff_eq] at hcon
    have hdis := h s hs hcon.1
    have : s.enabled = true := by simpa [Option.all] using hcon.2
    rw [hdis] at this
    cases this
  rw [hempty]
  rfl

/-- Witness for C7 at a concrete input: a disabled user server whose name
collides with the weather file entry leaves the file config unchanged. -/
theorem disabled_servers_excluded_witness :
    getMergedMCPConfig sampleYaml [sampleDisabledServer] (some "u1") false = sampleYaml :=
  disabled_servers_excluded sampleYaml [sampleDisabledServer] "u1" (by
    intro s hs _
    simp only [List.mem_singleton] at hs
    rw [hs]
    rfl)

/-- Counterexample to C8: merging performs no per-entry validation, so a
user server that fails validateServerConfig is not skipped; it appears in
the merged result under its own name. -/
theorem merge_does_not_skip_malformed_cex :
    validateServerConfig (some malformedStdioServer.type) (some malformedStdioServer.config)
        = Except.error "Command is required for stdio type"
      ∧ getKey (mergeConfigurations [] [malformedStdioServer, okStdioServer]) "badsrv"
        = some (toMergedEntry malformedStdioServer) := by
  exact ⟨rfl, rfl⟩

/-- C8 as amended: mergeConfigurations validates nothing and never aborts:
it is a total function, and every user server entry with a distinct name,
well-formed or malformed, ends up in the merged result, so one malformed
entry never prevents the remaining servers from being merged (but it is
merged itself rather than skipped). -/
theorem merge_merges_all_entries (yaml : ConfigMap) (us : List MCPServerDoc)
    (hnodup : (us.map (fun x => x.name)).Nodup) :
    ∀ s ∈ us, getKey (mergeConfigurations yaml us) s.name = some (toMergedEntry s) :=
  fun s hs => merge_getKey_of_mem us s hs hnodup yaml

/-- Witness for the amended C8: with one malformed and one well-formed
server, both are merged. -/
theorem merge_merges_all_entries_witness :
    getKey (mergeConfigurations [] [malformedStdioServer, okStdioServer]) "goodsrv"
      = some (toMergedEntry okStdioServer) :=
  merge_merges_all_entries [] [malformedStdioServer, okStdioServer]
    (by decide) okStdioServer (by decide)

/-- Witness for C1 at the concrete P3 scenario of the spec: file config with
weather and files entries, one enabled user server named weather. -/
theorem merge_precedence_spec_witness :
    getKey (getMergedMCPConfig sampleYaml [sampleServer] (some "u1") false) "weather"
        = some (toMergedEntry sampleServer)
      ∧ getKey (getMergedMCPConfig sampleYaml [sampleServer] (some "u1") false) "files"
        = getKey sampleYaml "files"
      ∧ getMergedMCPConfig sampleYaml [sampleServer] (some "u1") true = sampleYaml := by
  refine ⟨?_, ?_, ?_⟩
  · exact (merge_precedence_spec.1 sampleYaml [sampleServer] "u1" sampleServer
      (by simp [dbWellFormed]) (by simp) rfl rfl).1
  · exact merge_precedence_spec.2.1 sampleYaml [sampleServer] "u1" "files" (by
      intro s hs _ _
      simp only [List.mem_singleton] at hs
      rw [hs]
      decide)
  · exact merge_precedence_spec.2.2 sampleYaml [sampleServer] "u1"

theorem validate_ok_shape {t? : Option ServerType} {c? : Option MCPConfig}
    (h : validateServerConfig t? c? = Except.ok ()) :
    ∃ t c, t? = some t ∧ c? = some c := by
  cases t? with
  | none => simp [validateServerConfig] at h
  | some t =>
    cases c? with
    | none => simp [validateServerConfig] at h
    | some c => exact ⟨t, c, rfl, rfl⟩

theorem containsSubstr_dupMsg (n : String) :
    containsSubstr (dupMsg n) "already exists" = true := by
  unfold containsSubstr dupMsg
  apply decide_eq_true
  have h1 : List.IsInfix ("already exists").data ("\" already exists for this user").data := by
    decide
  have h2 : List.IsInfix ("\" already exists for this user").data
      ("MCP server with name \"" ++ n ++ "\" already exists for this user").data := by
    rw [String.data_append, String.data_append]
    exact (List.suffix_append _ _).isInfix
  exact h1.trans h2

/-- The bad sse config of spec scenario 2: an sse server whose url is
ws://x. -/
def sseWsBody : NewServerData :=
  { name := "bad"
    type := some ServerType.sse
    config := some { command := none, args := none, url := some "ws://x" }
    description := none
    enabled := none }

/-- C4: validateServerConfig rejects every stdio config with a missing or
empty command, every websocket config whose url protocol is not ws or wss,
and every sse or streamable-http config whose url protocol is ws or wss; in
particular, createUserServer on an sse config with url ws://x returns the
validation error with the database untouched and an empty effects list —
no database write, no system refresh, hence no connection attempt or other
I/O. -/
theorem validation_rejects_malformed_configs :
    (∀ c : MCPConfig, c.command.getD "" = "" →
      ∃ m, validateServerConfig (some ServerType.stdio) (some c) = Except.error m)
    ∧ (∀ (c : MCPConfig) (u p : String), c.url = some u → urlProtocol u = some p →
      p ≠ "ws:" → p ≠ "wss:" →
      validateServerConfig (some ServerType.websocket) (some c)
        = Except.error "Invalid URL format")
    ∧ (∀ (t : ServerType) (c : MCPConfig) (u p : String),
      (t = ServerType.sse ∨ t = ServerType.streamableHttp) →
      c.url = some u → urlProtocol u = some p → (p = "ws:" ∨ p = "wss:") →
      validateServerConfig (some t) (some c) = Except.error "Invalid URL format")
    ∧ (∀ (db : List MCPServerDoc) (uid : String) (now newId : Nat),
      (createUserServer db uid sseWsBody now newId).result
          = Except.error "Invalid URL format"
        ∧ (createUserServer db uid sseWsBody now newId).db = db
        ∧ (createUserServer db uid sseWsBody now newId).effects = []) := by
  refine ⟨?_, ?_, ?_, ?_⟩
  · intro c h
    exact ⟨"Command is required for stdio type", by simp [validateServerConfig, h]⟩
  · intro c u p hc hp hw hws
    have hne : (u == "") = false := by
      apply beq_eq_false_iff_ne.mpr
      intro hu2
      rw [hu2] at hp
      rw [show urlProtocol "" = none from rfl] at hp
      exact Option.noConfusion hp
    have hw2 : (p == "ws:") = false := beq_eq_false_iff_ne.mpr hw
    have hws2 : (p == "wss:") = false := beq_eq_false_iff_ne.mpr hws
    simp [validateServerConfig, hc, hne, hp, hw2, hws2]
  · intro t c u p ht hc hp hws
    have hne : (u == "") = false := by
      apply beq_eq_false_iff_ne.mpr
      intro hu2
      rw [hu2] at hp
      rw [show urlProtocol "" = none from rfl] at hp
      exact Option.noConfusion hp
    rcases ht with rfl | rfl <;> rcases hws with rfl | rfl <;>
      simp [validateServerConfig, hc, hne, hp]
  · intro db uid now newId
    refine ⟨?_, ?_, ?_⟩ <;> rfl

/-- Witness for C4 at concrete inputs: an empty-command stdio config, a
websocket config on an http url, and the sse config on ws://x. -/
theorem validation_rejects_malformed_configs_witness :
    (∃ m, validateServerConfig (some ServerType.stdio)
        (some { command := some "", args := some [], url := none }) = Except.error m)
      ∧ validateServerConfig (some ServerType.websocket)
          (some { command := none, args := none, url := some "http://h" })
          = Except.error "Invalid URL format"
      ∧ validateServerConfig (some ServerType.sse)
          (some { command := none, args := none, url := some "ws://x" })
          = Except.error "Invalid URL format"
      ∧ (createUserServer [] "u1" sseWsBody 0 0).effects = [] := by
  refine ⟨validation_rejects_malformed_configs.1 _ rfl,
    validation_rejects_malformed_configs.2.1 _ "http://h" "http:" rfl rfl
      (by decide) (by decide),
    validation_rejects_malformed_configs.2.2.1 ServerType.sse _ "ws://x" "ws:"
      (Or.inl rfl) rfl rfl (Or.inl rfl),
    (validation_rejects_malformed_configs.2.2.2 [] "u1" 0 0).2.2⟩

/-- C9: creating or updating a server under a name an existing server of the
same user already carries yields the already-exists duplicate error,
surfaced to the caller unresolved, and the REST layer maps it to HTTP 409
(for the update route, provided the interpolated name does not contain the
Server not found sentinel the route checks first). -/
theorem duplicate_name_conflict :
    (∀ (db : List MCPServerDoc) (uid : String) (data : NewServerData) (now newId : Nat),
      (∃ s ∈ db, s.userId = uid ∧ s.name = data.name) →
      validateServerConfig data.type data.config = Except.ok () →
      (createUserServer db uid data now newId).result = Except.error (dupMsg data.name)
        ∧ containsSubstr (dupMsg data.name) "already exists" = true
        ∧ postServersStatus (createUserServer db uid data now newId).result
          = { status := 409, errorMsg := some (dupMsg data.name) })
    ∧ (∀ (db : List MCPServerDoc) (sid : Nat) (uid : String) (u : UpdateData)
        (now : Nat) (doc : MCPServerDoc),
      u.config = none →
      findDoc db sid uid = some doc →
      (∃ s ∈ db, s.id ≠ sid ∧ s.userId = doc.userId
        ∧ s.name = (applyUpdate doc u now).name) →
      containsSubstr (dupMsg (u.name.getD "undefined")) "Server not found" = false →
      (updateUserServer db sid uid u now).result
          = Except.error (dupMsg (u.name.getD "undefined"))
        ∧ containsSubstr (dupMsg (u.name.getD "undefined")) "already exists" = true
        ∧ putServersStatus (updateUserServer db sid uid u now).result
          = { status := 409, errorMsg := some (dupMsg (u.name.getD "undefined")) }) := by
  constructor
  · intro db uid data now newId hdup hval
    obtain ⟨t, c, ht, hc⟩ := validate_ok_shape hval
    rw [ht, hc] at hval
    have hany : db.any (fun s => s.userId == uid && s.name == data.name) = true := by
      obtain ⟨s, hs, h1, h2⟩ := hdup
      exact List.any_eq_true.mpr ⟨s, hs, by simp [h1, h2]⟩
    have hres : (createUserServer db uid data now newId).result
        = Except.error (dupMsg data.name) := by
      simp only [createUserServer, hval, ht, hc, createMCPServer, hany, if_true]
    refine ⟨hres, containsSubstr_dupMsg _, ?_⟩
    rw [show postServersStatus (createUserServer db uid data now newId).result
        = postServersStatus (Except.error (dupMsg data.name)) by rw [hres]]
    simp [postServersStatus, containsSubstr_dupMsg]
  · intro db sid uid u now doc hcfg hfind hdup hsent
    have hany : db.any (fun s => !(s.id == sid) && s.userId == doc.userId
        && s.name == (applyUpdate doc u now).name) = true := by
      obtain ⟨s, hs, h1, h2, h3⟩ := hdup
      refine List.any_eq_true.mpr ⟨s, hs, ?_⟩
      have hid : (s.id == sid) = false := by simpa using h1
      simp [hid, h2, h3]
    have hres : (updateUserServer db sid uid u now).result
        = Except.error (dupMsg (u.name.getD "undefined")) := by
      simp only [updateUserServer, hcfg, updateUserServerCore, updateMCPServer,
        hfind, hany, if_true]
    refine ⟨hres, containsSubstr_dupMsg _, ?_⟩
    rw [show putServersStatus (updateUserServer db sid uid u now).result
        = putServersStatus (Except.error (dupMsg (u.name.getD "undefined"))) by rw [hres]]
    simp [putServersStatus, hsent, containsSubstr_dupMsg]

/-- A valid create body reusing the name weather of sampleServer. -/
def dupCreateBody : NewServerData :=
  { name := "weather"
    type := some ServerType.streamableHttp
    config := some { command := none, args := none, url := some "https://dup.example.com" }
    description := none
    enabled := none }

/-- An update that renames a server to weather. -/
def renameUpdate : UpdateData :=
  { name := some "weather", type := none, config := none, description := none
    enabled := none, tools := none, toolCount := none }

/-- Witness for C9: creating a second weather server for user u1 and
renaming goodsrv to weather both answer 409 with the already-exists
message. -/
theorem duplicate_name_conflict_witness :
    (createUserServer [sampleServer] "u1" dupCreateBody 3 9).result
        = Except.error (dupMsg "weather")
      ∧ postServersStatus (createUserServer [sampleServer] "u1" dupCreateBody 3 9).result
        = { status := 409, errorMsg := some (dupMsg "weather") }
      ∧ (updateUserServer [sampleServer, okStdioServer] 8 "u1" renameUpdate 4).result
        = Except.error (dupMsg "weather")
      ∧ putServersStatus
          (updateUserServer [sampleServer, okStdioServer] 8 "u1" renameUpdate 4).result
        = { status := 409, errorMsg := some (dupMsg "weather") } := by
  have h1 := duplicate_name_conflict.1 [sampleServer] "u1" dupCreateBody 3 9
    ⟨sampleServer, by simp, rfl, rfl⟩ rfl
  have h2 := duplicate_name_conflict.2 [sampleServer, okStdioServer] 8 "u1"
    renameUpdate 4 okStdioServer rfl rfl
    ⟨sampleServer, by simp, by decide, rfl, rfl⟩ (by decide)
  exact ⟨h1.1, h1.2.2, h2.1, h2.2.2⟩

/-- A concrete discovered tool. -/
def sampleTool : ToolDescr :=
  { name := "get_weather", description := "", enabled := true, schemaId := 0, lastUpdated := 0 }

/-- An update request that carries a tools array but no toolCount, as the
PUT route passes request bodies through unfiltered. -/
def toolsOnlyUpdate : UpdateData :=
  { name := none, type := none, config := none, description := none
    enabled := none, tools := some [sampleTool], toolCount := none }

/-- Counterexample to C10: the generic updateMCPServer spreads arbitrary
update fields into the document, so an update carrying only a tools array
writes the new one-element list while keeping the stale toolCount 0 — the
stored document then violates toolCount = tools.length. -/
theorem toolCount_invariant_cex :
    (updateMCPServer [sampleServer] 1 "u1" toolsOnlyUpdate 5).1
        = Except.ok (some (applyUpdate sampleServer toolsOnlyUpdate 5))
      ∧ (applyUpdate sampleServer toolsOnlyUpdate 5).tools.length = 1
      ∧ (applyUpdate sampleServer toolsOnlyUpdate 5).toolCount = 0
      ∧ findDoc (updateMCPServer [sampleServer] 1 "u1" toolsOnlyUpdate 5).2 1 "u1"
        = some (applyUpdate sampleServer toolsOnlyUpdate 5) := by
  refine ⟨rfl, rfl, rfl, rfl⟩

/-- C10 as amended: creation initializes tools to the empty list with
toolCount 0, updateMCPServerTools always writes toolCount equal to the
length of the new tools array, and status updates and enabled toggles
preserve the invariant — but the generic updateMCPServer can break it when
the update data carries tools or toolCount fields. -/
theorem toolCount_invariant_amended :
    (∀ (db : List MCPServerDoc) (uid : String) (data : NewServerData) (t : ServerType)
      (c : MCPConfig) (now newId : Nat) (doc : MCPServerDoc) (db2 : List MCPServerDoc),
      createMCPServer db uid data t c now newId = (Except.ok doc, db2) →
      doc.toolCount = doc.tools.length)
    ∧ (∀ (db : List MCPServerDoc) (sid : Nat) (uid : String) (tools : List ToolDescr)
      (now : Nat) (doc : MCPServerDoc) (db2 : List MCPServerDoc),
      updateMCPServerTools db sid uid tools now = (some doc, db2) →
      doc.toolCount = doc.tools.length)
    ∧ (∀ (doc : MCPServerDoc) (d : StatusData) (now : Nat),
      doc.toolCount = doc.tools.length →
      (applyStatusData doc d now).toolCount = (applyStatusData doc d now).tools.length)
    ∧ (∀ (db : List MCPServerDoc) (sid : Nat) (uid : String) (en : Bool) (now : Nat)
      (doc : MCPServerDoc) (db2 : List MCPServerDoc),
      toggleMCPServer db sid uid en now = (some doc, db2) →
      (∀ s ∈ db, s.toolCount = s.tools.length) →
      ∀ s ∈ db2, s.toolCount = s.tools.length) := by
  refine ⟨?_, ?_, ?_, ?_⟩
  · intro db uid data t c now newId doc db2 h
    unfold createMCPServer at h
    by_cases hany : db.any (fun s => s.userId == uid && s.name == data.name) = true
    · rw [if_pos hany] at h
      simp at h
    · rw [if_neg hany] at h
      simp only [Prod.mk.injEq, Except.ok.injEq] at h
      rw [← h.1]
      rfl
  · intro db sid uid tools now doc db2 h
    unfold updateMCPServerTools at h
    cases hfind : findDoc db sid uid with
    | none =>
      rw [hfind] at h
      simp at h
    | some d0 =>
      rw [hfind] at h
      simp only [Prod.mk.injEq, Option.some.injEq] at h
      rw [← h.1]
  · intro doc d now h
    unfold applyStatusData
    cases hem : d.errorMessage <;> cases hlc : d.lastConnected <;>
      by_cases hst : (d.status == ServerStatus.error) = true <;>
      simp [hst, h]
  · intro db sid uid en now doc db2 h hall s hs
    unfold toggleMCPServer at h
    cases hfind : findDoc db sid uid with
    | none =>
      rw [hfind] at h
      simp at h
    | some d0 =>
      rw [hfind] at h
      simp only [Prod.mk.injEq, Option.some.injEq] at h
      rw [← h.2] at hs
      unfold mapDoc at hs
      obtain ⟨orig, horig, hsval⟩ := List.mem_map.mp hs
      by_cases hp : (orig.id == sid && orig.userId == uid) = true
      · rw [if_pos hp] at hsval
        rw [← hsval]
        have hd0 : d0 ∈ db := List.mem_of_find?_eq_some hfind
        have hd0inv := hall d0 hd0
        cases en <;> simpa using hd0inv
      · rw [if_neg hp] at hsval
        rw [← hsval]
        exact hall orig horig

/-- The document created by the C10 witness create call. -/
def createdSample : MCPServerDoc :=
  { id := 3
    userId := "u1"
    name := "weather"
    type := ServerType.streamableHttp
    config := { command := none, args := none, url := some "https://dup.example.com" }
    description := none
    enabled := true
    status := ServerStatus.unknown
    errorMessage := none
    lastConnected := none
    tools := []
    toolCount := 0
    updatedAt := 0 }

/-- Witness for the amended C10: each preserving operation applied at a
concrete input. -/
theorem toolCount_invariant_amended_witness :
    createdSample.toolCount = createdSample.tools.length
      ∧ ({ createdSample with tools := [sampleTool], toolCount := 1, updatedAt := 4
            : MCPServerDoc }).toolCount
        = ({ createdSample with tools := [sampleTool], toolCount := 1, updatedAt := 4
            : MCPServerDoc }).tools.length
      ∧ (applyStatusData createdSample
          { status := ServerStatus.online, errorMessage := some none, lastConnected := some 2 }
          2).toolCount
        = (applyStatusData createdSample
          { status := ServerStatus.online, errorMessage := some none, lastConnected := some 2 }
          2).tools.length
      ∧ (∀ s ∈ (toggleMCPServer [createdSample] 3 "u1" false 5).2,
          s.toolCount = s.tools.length) := by
  refine ⟨?_, ?_, ?_, ?_⟩
  · exact toolCount_invariant_amended.1 [] "u1" dupCreateBody ServerType.streamableHttp
      { command := none, args := none, url := some "https://dup.example.com" } 0 3
      createdSample [createdSample] rfl
  · exact toolCount_invariant_amended.2.1 [createdSample] 3 "u1" [sampleTool] 4
      ({ createdSample with tools := [sampleTool], toolCount := 1, updatedAt := 4 })
      [{ createdSample with tools := [sampleTool], toolCount := 1, updatedAt := 4 }] rfl
  · exact toolCount_invariant_amended.2.2.1 createdSample
      { status := ServerStatus.online, errorMessage := some none, lastConnected := some 2 } 2 rfl
  · exact toolCount_invariant_amended.2.2.2 [createdSample] 3 "u1" false 5
      ({ createdSample with enabled := false, status := ServerStatus.offline, updatedAt := 5 })
      [{ createdSample with enabled := false, status := ServerStatus.offline, updatedAt := 5 }]
      rfl (by intro s hs; simp only [List.mem_singleton] at hs; rw [hs]; rfl)

theorem applyStatusData_id (doc : MCPServerDoc) (d : StatusData) (now : Nat) :
    (applyStatusData doc d now).id = doc.id
      ∧ (applyStatusData doc d now).userId = doc.userId := by
  unfold applyStatusData
  cases d.errorMessage <;> cases d.lastConnected <;>
    by_cases hst : (d.status == ServerStatus.error) = true <;> simp [hst]

theorem applyStatusData_status (doc : MCPServerDoc) (d : StatusData) (now : Nat) :
    (applyStatusData doc d now).status = d.status := by
  unfold applyStatusData
  cases d.errorMessage <;> cases d.lastConnected <;>
    by_cases hst : (d.status == ServerStatus.error) = true <;> simp [hst]

theorem applyStatusData_errClear (doc : MCPServerDoc) (d : StatusData) (now : Nat)
    (h : (d.status == ServerStatus.error) = false) :
    (applyStatusData doc d now).errorMessage = none := by
  unfold applyStatusData
  cases d.errorMessage <;> cases d.lastConnected <;> simp [h]

theorem applyStatusData_lastConn (doc : MCPServerDoc) (d : StatusData) (now t : Nat)
    (h : d.lastConnected = some t) :
    (applyStatusData doc d now).lastConnected = some t := by
  unfold applyStatusData
  rw [h]
  cases d.errorMessage <;>
    by_cases hst : (d.status == ServerStatus.error) = true <;> simp [hst]

theorem applyStatusData_errSet (doc : MCPServerDoc) (d : StatusData) (now : Nat)
    (em : Option String) (hs : (d.status == ServerStatus.error) = true)
    (he : d.errorMessage = some em) :
    (applyStatusData doc d now).errorMessage = em := by
  unfold applyStatusData
  rw [he]
  cases d.lastConnected <;> simp [hs]

theorem findDoc_mapDoc_const (db : List MCPServerDoc) (sid : Nat) (uid : String)
    (nd : MCPServerDoc) (hnd : ((nd.id == sid) && (nd.userId == uid)) = true) :
    findDoc (mapDoc db sid uid (fun _ => nd)) sid uid
      = (findDoc db sid uid).map (fun _ => nd) := by
  unfold findDoc mapDoc
  induction db with
  | nil => rfl
  | cons a t ih =>
    simp only [List.map_cons]
    by_cases ha : ((a.id == sid) && (a.userId == uid)) = true
    · rw [if_pos ha]
      simp only [List.find?_cons, hnd, ha]
      rfl
    · rw [if_neg ha]
      have ha2 : ((a.id == sid) && (a.userId == uid)) = false := by simpa using ha
      simp only [List.find?_cons, ha2]
      exact ih

theorem performConnectionTest_failure (o : TransportOutcome)
    (h : (performConnectionTest o).success = false) :
    ∃ m, (performConnectionTest o).error = some m := by
  cases o with
  | ok tools? => simp [performConnectionTest] at h
  | failed e => exact ⟨_, rfl⟩
  | thrown msg => exact ⟨_, rfl⟩

/-- C5: testServerConnection on an existing server writes status connecting
first, then online (stamping lastConnected and clearing errorMessage) when
the test succeeds or error (with errorMessage set) when it fails; a
transport-level exception is caught inside performConnectionTest and
converted into a failed result, so the caller receives a returned
TestResult, never a propagated exception. -/
theorem testConnection_state_machine (db : List MCPServerDoc) (sid : Nat) (uid : String)
    (outcome : TransportOutcome) (now : Nat) (doc : MCPServerDoc)
    (hfind : findDoc db sid uid = some doc) :
    ∃ r : TestResult,
      (testServerConnection db sid uid outcome now).result = Except.ok r
      ∧ (testServerConnection db sid uid outcome now).trace
        = [ServerStatus.connecting,
            if r.success then ServerStatus.online else ServerStatus.error]
      ∧ (∀ msg, outcome = TransportOutcome.thrown msg → r.success = false)
      ∧ ∃ stored,
          findDoc (testServerConnection db sid uid outcome now).db sid uid = some stored
          ∧ (r.success = true → stored.status = ServerStatus.online
              ∧ stored.lastConnected = some now ∧ stored.errorMessage = none)
          ∧ (r.success = false → stored.status = ServerStatus.error
              ∧ ∃ m, stored.errorMessage = some m) := by
  have hfind2 : db.find? (fun s => s.id == sid && s.userId == uid) = some doc := hfind
  have hpred : (doc.id == sid && doc.userId == uid) = true := by
    have h3 := List.find?_some hfind2
    exact h3
  refine ⟨performConnectionTest outcome, ?_, ?_, ?_, ?_⟩
  · simp only [testServerConnection, hfind]
  · simp only [testServerConnection, hfind]
  · intro msg hmsg
    rw [hmsg]
    rfl
  · simp only [testServerConnection, hfind]
    set r := performConnectionTest outcome with hrdef
    set d1 : StatusData :=
      { status := ServerStatus.connecting, errorMessage := some none, lastConnected := none }
      with hd1def
    set n1 := applyStatusData doc d1 now with hn1def
    have hstep1 : (updateMCPServerStatus db sid uid d1 now).2
        = mapDoc db sid uid (fun _ => n1) := by
      simp only [updateMCPServerStatus, hfind]
    have hn1pred : (n1.id == sid && n1.userId == uid) = true := by
      rw [hn1def, (applyStatusData_id doc d1 now).1, (applyStatusData_id doc d1 now).2]
      exact hpred
    have hfind1 : findDoc (mapDoc db sid uid (fun _ => n1)) sid uid = some n1 := by
      rw [findDoc_mapDoc_const db sid uid n1 hn1pred, hfind]
      rfl
    set d2 : StatusData :=
      { status := if r.success then ServerStatus.online else ServerStatus.error
        errorMessage := if r.success then some none else
          (match r.error with
            | some m => some (some m)
            | none => none)
        lastConnected := if r.success then some now else none } with hd2def
    set n2 := applyStatusData n1 d2 now with hn2def
    have hstep2 : (updateMCPServerStatus (mapDoc db sid uid (fun _ => n1)) sid uid d2 now).2
        = mapDoc (mapDoc db sid uid (fun _ => n1)) sid uid (fun _ => n2) := by
      simp only [updateMCPServerStatus, hfind1]
    have hn2pred : (n2.id == sid && n2.userId == uid) = true := by
      rw [hn2def, (applyStatusData_id n1 d2 now).1, (applyStatusData_id n1 d2 now).2]
      exact hn1pred
    have hfind2 : findDoc (mapDoc (mapDoc db sid uid (fun _ => n1)) sid uid (fun _ => n2))
        sid uid = some n2 := by
      rw [findDoc_mapDoc_const _ sid uid n2 hn2pred, hfind1]
      rfl
    rw [hstep1, hstep2]
    by_cases hsuc : r.success = true
    · set n3 : MCPServerDoc :=
        { n2 with tools := r.tools, toolCount := r.tools.length, updatedAt := now }
        with hn3def
      have hstep3 : (updateMCPServerTools
          (mapDoc (mapDoc db sid uid (fun _ => n1)) sid uid (fun _ => n2)) sid uid
          r.tools now).2
          = mapDoc (mapDoc (mapDoc db sid uid (fun _ => n1)) sid uid (fun _ => n2))
              sid uid (fun _ => n3) := by
        simp only [updateMCPServerTools, hfind2]
      have hn3pred : (n3.id == sid && n3.userId == uid) = true := hn2pred
      have hfind3 : findDoc (mapDoc (mapDoc (mapDoc db sid uid (fun _ => n1)) sid uid
          (fun _ => n2)) sid uid (fun _ => n3)) sid uid = some n3 := by
        rw [findDoc_mapDoc_const _ sid uid n3 hn3pred, hfind2]
        rfl
      rw [if_pos hsuc, hstep3]
      refine ⟨n3, hfind3, ?_, ?_⟩
      · intro _
        have hst : n3.status = ServerStatus.online := by
          rw [hn3def]
          show n2.status = ServerStatus.online
          rw [hn2def, applyStatusData_status, hd2def]
          simp [hsuc]
        have hlc : n3.lastConnected = some now := by
          rw [hn3def]
          show n2.lastConnected = some now
          rw [hn2def]
          refine applyStatusData_lastConn n1 d2 now now ?_
          rw [hd2def]
          simp [hsuc]
        have herr : n3.errorMessage = none := by
          rw [hn3def]
          show n2.errorMessage = none
          rw [hn2def]
          refine applyStatusData_errClear n1 d2 now ?_
          rw [hd2def]
          simp [hsuc]
        exact ⟨hst, hlc, herr⟩
      · intro hcon
        rw [hsuc] at hcon
        cases hcon
    · have hsuc2 : r.success = false := by simpa using hsuc
      rw [if_neg hsuc]
      refine ⟨n2, hfind2, ?_, ?_⟩
      · intro hcon
        rw [hcon] at hsuc2
        cases hsuc2
      · intro _
        obtain ⟨m, hm⟩ := performConnectionTest_failure outcome (by rw [← hrdef]; exact hsuc2)
        have hst : n2.status = ServerStatus.error := by
          rw [hn2def, applyStatusData_status, hd2def]
          simp [hsuc2]
        have herr : n2.errorMessage = some m := by
          rw [hn2def]
          refine applyStatusData_errSet n1 d2 now (some m) ?_ ?_
          · rw [hd2def]
            simp [hsuc2]
          · rw [hd2def]
            simp only [hsuc2, Bool.false_eq_true, if_false]
            rw [hrdef, hm]
        exact ⟨hst, m, herr⟩

/-- Witness for C5 at a concrete input: a thrown transport exception against
the stored weather server. -/
theorem testConnection_state_machine_witness :
    ∃ r : TestResult,
      (testServerConnection [sampleServer] 1 "u1"
        (TransportOutcome.thrown "ECONNREFUSED") 9).result = Except.ok r
      ∧ (testServerConnection [sampleServer] 1 "u1"
          (TransportOutcome.thrown "ECONNREFUSED") 9).trace
        = [ServerStatus.connecting,
            if r.success then ServerStatus.online else ServerStatus.error]
      ∧ (∀ msg, TransportOutcome.thrown "ECONNREFUSED" = TransportOutcome.thrown msg →
          r.success = false)
      ∧ ∃ stored,
          findDoc (testServerConnection [sampleServer] 1 "u1"
            (TransportOutcome.thrown "ECONNREFUSED") 9).db 1 "u1" = some stored
          ∧ (r.success = true → stored.status = ServerStatus.online
              ∧ stored.lastConnected = some 9 ∧ stored.errorMessage = none)
          ∧ (r.success = false → stored.status = ServerStatus.error
              ∧ ∃ m, stored.errorMessage = some m) :=
  testConnection_state_machine [sampleServer] 1 "u1"
    (TransportOutcome.thrown "ECONNREFUSED") 9 sampleServer rfl

/-- C6: when tool listing fails, discoverServerTools catches the error and
returns the empty list instead of throwing past the controller, and
refreshServerTools stores that empty list: the refresh returns ok with zero
tools and the stored server document ends with tools = [] and toolCount = 0,
so a server whose listing failed contributes zero tools. -/
theorem toolRefresh_failure_yields_empty (db : List MCPServerDoc) (sid : Nat)
    (uid : String) (e : String) (now : Nat) (doc : MCPServerDoc)
    (hfind : findDoc db sid uid = some doc) :
    (∀ (msg : String) (n : Nat), discoverServerTools (Except.error msg) n = [])
      ∧ (refreshServerTools db sid uid (Except.error e) now).result = Except.ok ([], 0)
      ∧ ∃ stored,
          findDoc (refreshServerTools db sid uid (Except.error e) now).db sid uid
            = some stored ∧ stored.tools = [] ∧ stored.toolCount = 0 := by
  have hfindL : db.find? (fun s => s.id == sid && s.userId == uid) = some doc := hfind
  have hpred : (doc.id == sid && doc.userId == uid) = true := by
    have h3 := List.find?_some hfindL
    exact h3
  refine ⟨fun msg n => rfl, ?_, ?_⟩
  · simp only [refreshServerTools, hfind, discoverServerTools, updateMCPServerTools]
    rfl
  · simp only [refreshServerTools, hfind, discoverServerTools, updateMCPServerTools]
    set n1 : MCPServerDoc := { doc with tools := [], toolCount := 0, updatedAt := now }
      with hn1def
    have hn1pred : (n1.id == sid && n1.userId == uid) = true := hpred
    refine ⟨n1, ?_, rfl, rfl⟩
    rw [show (List.length ([] : List ToolDescr)) = 0 from rfl]
    rw [findDoc_mapDoc_const db sid uid n1 hn1pred, hfind]
    rfl

/-- Witness for C6 at a concrete input: a failed listing against the stored
weather server. -/
theorem toolRefresh_failure_yields_empty_witness :
    (∀ (msg : String) (n : Nat), discoverServerTools (Except.error msg) n = [])
      ∧ (refreshServerTools [sampleServer] 1 "u1" (Except.error "listTools failed") 6).result
        = Except.ok ([], 0)
      ∧ ∃ stored,
          findDoc (refreshServerTools [sampleServer] 1 "u1"
            (Except.error "listTools failed") 6).db 1 "u1"
            = some stored ∧ stored.tools = [] ∧ stored.toolCount = 0 :=
  toolRefresh_failure_yields_empty [sampleServer] 1 "u1" "listTools failed" 6
    sampleServer rfl

/-- A key of the shared availableTools mapping: a base tool loaded from the
tool service, or an MCP tool under its server-qualified key
toolName + delimiter + serverName. -/
inductive ToolKey where
  | base (name : String)
  | mcp (tool : String) (server : String)
deriving DecidableEq, Repr

/-- The shared tool catalog: a JS object from keys to opaque tool
definitions, modelled as an association list with unique keys. -/
abbrev ToolCatalog := List (ToolKey × Nat)

/-- True when the key is the server-qualified key of a tool of the given
server. -/
def isServerKey (k : ToolKey) (server : String) : Bool :=
  match k with
  | ToolKey.base _ => false
  | ToolKey.mcp _ s => s == server

/-- JS object property write for catalog entries, same replace-or-append
semantics as setKey. -/
def catSet (m : ToolCatalog) (k : ToolKey) (v : Nat) : ToolCatalog :=
  if m.any (fun p => p.1 == k) then
    m.map (fun p => if p.1 == k then (k, v) else p)
  else
    m ++ [(k, v)]

/-- Modelled from the spec: mapAvailableTools of the MCP manager lives in
the external librechat mcp package and is missing from the sources here —
only its call sites (initializeMCP, refreshMCPSystem) are present. Per spec
4.4, for every server with a live connection it publishes the tools of that
server's latest successful discovery into the given mapping under
server-qualified keys, replacing (not merging) that server's prior entries;
it does not touch entries of servers it holds no connection for. The
connections argument lists each currently connected server with its
discovered tool names. -/
def mapAvailableTools (tools : ToolCatalog)
    (connections : List (String × List String)) : ToolCatalog :=
  connections.foldl
    (fun acc c =>
      let cleared := acc.filter (fun p => !(isServerKey p.1 c.1))
      c.2.foldl (fun acc2 t => catSet acc2 (ToolKey.mcp t c.1) 0) cleared)
    tools

/-- MCPServerService.refreshMCPSystem, tool-catalog part: read the current
global cache, copy it, let the manager map the tools of the now-connected
servers on top of that copy, and store the copy back as the global cache
(isGlobal). A missing cache leaves the catalog untouched. The connections
are those the manager holds after reinitialize, i.e. the servers whose
latest connection attempt succeeded. -/
def refreshMCPSystemCatalog (cachedTools : Option ToolCatalog)
    (connections : List (String × List String)) : Option ToolCatalog :=
  match cachedTools with
  | none => none
  | some avail => some (mapAvailableTools avail connections)

/-- C3 (code bug): refreshMCPSystem seeds the rebuild from the previously
cached catalog instead of a fresh tool set, and mapAvailableTools only
touches entries of servers that are currently connected, so a server whose
latest attempt failed (absent from the connections) keeps its old entries in
the published catalog: the first conjunct shows the stale s1 tool surviving
a refresh in which s1 failed, and the second shows it surviving even while
another server s2 republishes — contradicting the claim that the catalog
holds no entries for a server whose latest attempt failed. -/
theorem refresh_keeps_stale_tools_of_failed_server :
    refreshMCPSystemCatalog (some [(ToolKey.mcp "old_tool" "s1", 0)]) []
        = some [(ToolKey.mcp "old_tool" "s1", 0)]
      ∧ refreshMCPSystemCatalog
          (some [(ToolKey.mcp "old_tool" "s1", 0), (ToolKey.base "calc", 0)])
          [("s2", ["t2"])]
        = some [(ToolKey.mcp "old_tool" "s1", 0), (ToolKey.base "calc", 0),
            (ToolKey.mcp "t2" "s2", 0)] := by
  exact ⟨rfl, rfl⟩

end Aichat
